import Mathlib

/-!
Verification of the FocusPro Pomodoro timer repository.

Shallow embedding of the JavaScript modules:
  * `src/js/modules/Timer.js`        -- countdown engine (states, tick, callbacks)
  * `src/js/modules/TaskManager.js`  -- task ledger (current task, history, streaks)
  * `src/js/main.js`                 -- session coordinator (work/break alternation)

Conventions.  JavaScript numbers appearing in the modeled code paths are
non-negative integers (durations, remaining seconds, session counters), so they
are embedded as `Nat`; `getProgress` performs real division and is embedded
over `Rat`.  The host interval primitive (`setInterval`/`clearInterval`) is
embedded as a count of live periodic sources (`intervals`) together with a flag
recording whether the private field `intervalId` currently holds an id
(`tracked`); `clearInterval(this.intervalId)` removes one source only when the
field is set.  Observer callbacks are embedded as values recording an external
behavior that either returns or throws (`Except String Unit`); dispatch is the
source `forEach` loop with its per-callback `try`/`catch`.
-/

/-- The four runtime states of the engine.  `constants.js` declares only
`IDLE`, `RUNNING`, `PAUSED`; `Timer.js` additionally assigns
`TIMER_STATES.COMPLETED`, which evaluates to the JavaScript value `undefined`.
That fourth runtime value is embedded as the constructor `completed`. -/
inductive TState where
  | idle
  | running
  | paused
  | completed
deriving DecidableEq, Repr

/-- Observable callback events emitted by the engine.  A `tickE r` records an
invocation of the tick observers right after `remainingTime` became `r` (the
source passes `getRemainingTime()` and `getProgress()`, both derived from
`r`). -/
inductive Ev where
  | tickE (remaining : Nat)
  | completeE
  | stateChangeE (next old : TState)
deriving DecidableEq, Repr

/-- State of `Timer.js`: private fields `duration`, `remainingTime`,
`state`, plus the host interval bookkeeping (see module docstring). -/
structure TimerS where
  duration : Nat
  remaining : Nat
  tstate : TState
  intervals : Nat
  tracked : Bool
deriving DecidableEq, Repr

/-- The `if (this.intervalId) { clearInterval(...); this.intervalId = null }`
pattern shared by `pause`, `reset` and `complete`. -/
def clearTracked (t : TimerS) : TimerS :=
  if t.tracked then { t with intervals := t.intervals - 1, tracked := false } else t

/-- Source `Timer.setState`: records the new state and fires `stateChange`
observers; a no-op (and no event) when the state is unchanged. -/
def setStateT (t : TimerS) (s : TState) : TimerS × List Ev :=
  if t.tstate = s then (t, [])
  else ({ t with tstate := s }, [Ev.stateChangeE s t.tstate])

/-- The `Timer` constructor: `remainingTime = duration`, state `IDLE`, no
interval. -/
def timerNew (d : Nat) : TimerS :=
  ⟨d, d, TState.idle, 0, false⟩

/-- Source `Timer.start`: returns immediately when already `RUNNING`; otherwise sets
state `RUNNING` and calls `setInterval` (one more live source, id tracked). -/
def timerStart (t : TimerS) : TimerS × List Ev :=
  if t.tstate = TState.running then (t, [])
  else
    let p := setStateT t TState.running
    ({ p.1 with intervals := p.1.intervals + 1, tracked := true }, p.2)

/-- Source `Timer.pause`: returns unless `RUNNING`; otherwise sets state `PAUSED`
and clears the tracked interval. -/
def timerPause (t : TimerS) : TimerS × List Ev :=
  if t.tstate ≠ TState.running then (t, [])
  else
    let p := setStateT t TState.paused
    (clearTracked p.1, p.2)

/-- Source `Timer.reset`: unconditionally restores `remainingTime = duration`, sets
state `IDLE`, and clears the tracked interval. -/
def timerReset (t : TimerS) : TimerS × List Ev :=
  let t0 := { t with remaining := t.duration }
  let p := setStateT t0 TState.idle
  (clearTracked p.1, p.2)

/-- Source `Timer.complete` (private): clears the tracked interval, sets state
`COMPLETED`, then fires every `complete` observer. -/
def timerComplete (t : TimerS) : TimerS × List Ev :=
  let p := setStateT (clearTracked t) TState.completed
  (p.1, p.2 ++ [Ev.completeE])

/-- Source `Timer.tick` (private): when `remainingTime <= 0` it completes without
decrementing; otherwise it decrements and fires every `tick` observer with the
new remaining value. -/
def timerTick (t : TimerS) : TimerS × List Ev :=
  if t.remaining ≤ 0 then timerComplete t
  else
    let t1 := { t with remaining := t.remaining - 1 }
    (t1, [Ev.tickE t1.remaining])

/-- Source `Timer.getProgress`: `0` when `duration` is `0`, otherwise
`(duration - remaining) / duration * 100` under exact rational division. -/
def getProgress (t : TimerS) : Rat :=
  if t.duration = 0 then 0
  else ((t.duration : Rat) - (t.remaining : Rat)) / (t.duration : Rat) * 100

/-- Iterated firing of the periodic interval callback: `n` firings, in order, with the emitted
callback events concatenated. -/
def runTicks : Nat → TimerS → TimerS × List Ev
  | 0, t => (t, [])
  | n + 1, t =>
    let p := timerTick t
    let q := runTicks n p.1
    (q.1, p.2 ++ q.2)

/-- One step of the host-driven transition system: any public operation may be
invoked at any time; the private `tick` is invoked by the host only while a
periodic interval source is live. -/
inductive Step : TimerS → TimerS → Prop where
  | start (t : TimerS) : Step t (timerStart t).1
  | pause (t : TimerS) : Step t (timerPause t).1
  | reset (t : TimerS) : Step t (timerReset t).1
  | tick (t : TimerS) (h : t.intervals ≠ 0) : Step t (timerTick t).1

/-- Timer states reachable from a freshly constructed timer. -/
inductive Reachable : TimerS → Prop where
  | init (d : Nat) : Reachable (timerNew d)
  | step {t t' : TimerS} : Reachable t → Step t t' → Reachable t'

/-- Transition pairs asserted by the spec sentence behind claim C2:
start from Idle or Paused, pause from Running, expiry from Running, reset from
Idle, Paused or Completed. -/
def claimedTransition (s s' : TState) : Prop :=
  (s, s') ∈ ([(TState.idle, TState.running), (TState.running, TState.paused),
    (TState.paused, TState.running), (TState.running, TState.completed),
    (TState.idle, TState.idle), (TState.paused, TState.idle),
    (TState.completed, TState.idle)] : List (TState × TState))

instance (s s' : TState) : Decidable (claimedTransition s s') := by
  unfold claimedTransition
  infer_instance

/-- Transition pairs the code actually produces (state-changing only):
additionally start from Completed and reset from Running. -/
def amendedTransition (s s' : TState) : Prop :=
  (s, s') ∈ ([(TState.idle, TState.running), (TState.paused, TState.running),
    (TState.completed, TState.running), (TState.running, TState.paused),
    (TState.running, TState.completed), (TState.running, TState.idle),
    (TState.paused, TState.idle),
    (TState.completed, TState.idle)] : List (TState × TState))

instance (s s' : TState) : Decidable (amendedTransition s s') := by
  unfold amendedTransition
  infer_instance

/-- Reachability invariant: the private `intervalId` field is set exactly while
the timer is `RUNNING`, and the number of live interval sources equals one when
the field is set, zero otherwise. -/
theorem timer_invariant {t : TimerS} (h : Reachable t) :
    (t.tracked = true ↔ t.tstate = TState.running) ∧
      t.intervals = (if t.tracked then 1 else 0) := by
  induction h with
  | init d => simp [timerNew]
  | @step u u' hr hs ih =>
    obtain ⟨d, r, s, iv, trk⟩ := u
    cases hs with
    | start =>
      cases s <;> cases trk <;>
        simp_all [timerStart, setStateT]
    | pause =>
      cases s <;> cases trk <;>
        simp_all [timerPause, setStateT, clearTracked]
    | reset =>
      cases s <;> cases trk <;>
        simp_all [timerReset, setStateT, clearTracked]
    | tick hiv =>
      by_cases hz : r ≤ 0 <;> cases s <;> cases trk <;>
        simp_all [timerTick, timerComplete, setStateT, clearTracked]

/-- While running with at least `k` seconds left, `k` interval firings
decrement second by second, each firing the tick observers with the new
remaining value. -/
theorem runTicks_running (d iv : Nat) (trk : Bool) :
    ∀ k r : Nat, k ≤ r →
      runTicks k ⟨d, r, TState.running, iv, trk⟩ =
        (⟨d, r - k, TState.running, iv, trk⟩,
          (List.range k).map (fun i => Ev.tickE (r - 1 - i))) := by
  intro k
  induction k with
  | zero => intro r _; simp [runTicks]
  | succ k ih =>
    intro r hk
    have hr : ¬ r ≤ 0 := by omega
    have hk' : k ≤ r - 1 := by omega
    have step1 : timerTick ⟨d, r, TState.running, iv, trk⟩ =
        (⟨d, r - 1, TState.running, iv, trk⟩, [Ev.tickE (r - 1)]) := by
      simp [timerTick, hr]
    simp only [runTicks, step1, ih (r - 1) hk', Prod.mk.injEq, TimerS.mk.injEq,
      List.singleton_append]
    refine ⟨⟨trivial, by omega, trivial, trivial, trivial⟩, ?_⟩
    rw [List.range_succ_eq_map, List.map_cons, List.map_map]
    refine List.cons_eq_cons.mpr ⟨by simp, ?_⟩
    apply List.map_congr_left
    intro i _
    simp only [Function.comp_apply]
    congr 1
    omega

/-- Splitting a run of interval firings. -/
theorem runTicks_add (m n : Nat) (t : TimerS) :
    runTicks (m + n) t =
      ((runTicks n (runTicks m t).1).1,
        (runTicks m t).2 ++ (runTicks n (runTicks m t).1).2) := by
  induction m generalizing t with
  | zero => simp [runTicks]
  | succ m ih =>
    have : m + 1 + n = (m + n) + 1 := by omega
    rw [this]
    simp only [runTicks, ih]
    simp [List.append_assoc]

/-- C1 (counterexample).  The claim asserts that for duration 5, five elapsed
ticks leave the engine Completed with the tick observers invoked four times
(remaining 4,3,2,1) and the complete observers invoked once.  In the code the
tick handler tests `remainingTime <= 0` before decrementing, so after five
firings the state is still Running, the tick observers have fired five times
(remaining 4,3,2,1,0) and the complete observers have not fired at all. -/
theorem c1_five_ticks_not_completed :
    (runTicks 5 (timerStart (timerNew 5)).1).1.tstate = TState.running ∧
      (runTicks 5 (timerStart (timerNew 5)).1).1.tstate ≠ TState.completed ∧
      (runTicks 5 (timerStart (timerNew 5)).1).2 =
        [Ev.tickE 4, Ev.tickE 3, Ev.tickE 2, Ev.tickE 1, Ev.tickE 0] := by
  decide

/-- C1 (amended).  For every duration d > 0, starting and letting d + 1 ticks
elapse drives the engine to Completed exactly once: the tick observers fire d
times with remaining d-1, ..., 1, 0, then a single stateChange to Completed and
a single complete firing occur on the terminal step, which fires no tick
observer. -/
theorem c1_countdown_run (d : Nat) (_hd : 0 < d) :
    runTicks (d + 1) (timerStart (timerNew d)).1 =
      (⟨d, 0, TState.completed, 0, false⟩,
        (List.range d).map (fun i => Ev.tickE (d - 1 - i)) ++
          [Ev.stateChangeE TState.completed TState.running, Ev.completeE]) := by
  have hstart : (timerStart (timerNew d)).1 = ⟨d, d, TState.running, 1, true⟩ := by
    simp [timerStart, timerNew, setStateT]
  rw [hstart, runTicks_add d 1, runTicks_running d 1 true d d (le_refl d)]
  simp [runTicks, timerTick, timerComplete, clearTracked, setStateT]

/-- C1 (witness for the amended theorem, at d = 5). -/
theorem c1_countdown_run_witness :
    runTicks (5 + 1) (timerStart (timerNew 5)).1 =
      (⟨5, 0, TState.completed, 0, false⟩,
        (List.range 5).map (fun i => Ev.tickE (5 - 1 - i)) ++
          [Ev.stateChangeE TState.completed TState.running, Ev.completeE]) :=
  c1_countdown_run 5 (by decide)

/-- C2 (counterexample).  Two transitions the code produces are missing from
the claimed transition list: reset while Running yields Idle, and start from
Completed yields Running (so Completed is not exited only by reset). -/
theorem c2_extra_transitions :
    (runTicks 2 (timerStart (timerNew 1)).1).1.tstate = TState.completed ∧
      (timerStart (runTicks 2 (timerStart (timerNew 1)).1).1).1.tstate =
        TState.running ∧
      ¬ claimedTransition TState.completed TState.running ∧
      (timerReset (timerStart (timerNew 1)).1).1.tstate = TState.idle ∧
      ¬ claimedTransition TState.running TState.idle := by
  decide

/-- C2 (amended).  A fresh timer is Idle, and every reachable state-changing
step is one of: Idle/Paused/Completed to Running (start), Running to Paused
(pause), Running to Completed (tick at zero), or any state to Idle (reset);
moreover Completed is entered only from Running. -/
theorem c2_state_machine :
    (∀ d : Nat, (timerNew d).tstate = TState.idle) ∧
      (∀ t t' : TimerS, Reachable t → Step t t' → t.tstate ≠ t'.tstate →
        amendedTransition t.tstate t'.tstate) ∧
      (∀ t t' : TimerS, Reachable t → Step t t' →
        t'.tstate = TState.completed →
        t.tstate = TState.running ∨ t.tstate = TState.completed) := by
  refine ⟨fun d => rfl, ?_, ?_⟩
  · intro t t' hre hs hne
    have hinv := timer_invariant hre
    obtain ⟨d, r, s, iv, trk⟩ := t
    cases hs with
    | start =>
      cases s <;> cases trk <;>
        simp_all [timerStart, setStateT, amendedTransition]
    | pause =>
      cases s <;> cases trk <;>
        simp_all [timerPause, setStateT, clearTracked, amendedTransition]
    | reset =>
      cases s <;> cases trk <;>
        simp_all [timerReset, setStateT, clearTracked, amendedTransition]
    | tick hiv =>
      by_cases hz : r ≤ 0 <;> cases s <;> cases trk <;>
        simp_all [timerTick, timerComplete, setStateT, clearTracked,
          amendedTransition]
  · intro t t' hre hs hc
    have hinv := timer_invariant hre
    obtain ⟨d, r, s, iv, trk⟩ := t
    cases hs with
    | start =>
      cases s <;> cases trk <;>
        simp_all [timerStart, setStateT]
    | pause =>
      cases s <;> cases trk <;>
        simp_all [timerPause, setStateT, clearTracked]
    | reset =>
      cases s <;> cases trk <;>
        simp_all [timerReset, setStateT, clearTracked]
    | tick hiv =>
      by_cases hz : r ≤ 0 <;> cases s <;> cases trk <;>
        simp_all [timerTick, timerComplete, setStateT, clearTracked]

/-- C2 (witness).  The start step from a fresh timer realizes the
Idle-to-Running transition of the amended list. -/
theorem c2_state_machine_witness :
    amendedTransition (timerNew 3).tstate (timerStart (timerNew 3)).1.tstate :=
  c2_state_machine.2.1 (timerNew 3) (timerStart (timerNew 3)).1
    (Reachable.init 3) (Step.start (timerNew 3)) (by decide)

/-- C8.  `reset()` is idempotent from any state: the first call yields Idle
with `remaining = duration`, and a second call returns the very same state
(and fires no observer). -/
theorem c8_reset_idempotent (t : TimerS) :
    (timerReset t).1.tstate = TState.idle ∧
      (timerReset t).1.remaining = t.duration ∧
      (timerReset t).1.duration = t.duration ∧
      timerReset (timerReset t).1 = ((timerReset t).1, []) := by
  obtain ⟨d, r, s, iv, trk⟩ := t
  cases s <;> cases trk <;>
    simp [timerReset, setStateT, clearTracked]

/-- C9.  `start()` against an already Running timer is a complete no-op (same
state, no events, no new interval source), and in every reachable state at
most one periodic interval source is live. -/
theorem c9_start_running_noop :
    (∀ t : TimerS, t.tstate = TState.running → timerStart t = (t, [])) ∧
      (∀ t : TimerS, Reachable t → t.intervals ≤ 1) := by
  constructor
  · intro t ht
    simp [timerStart, ht]
  · intro t hre
    have h2 := (timer_invariant hre).2
    rw [h2]
    cases t.tracked <;> simp

/-- C9 (witness): a concrete running timer and a concrete reachable timer. -/
theorem c9_start_running_noop_witness :
    timerStart ⟨5, 5, TState.running, 1, true⟩ =
        (⟨5, 5, TState.running, 1, true⟩, []) ∧
      (timerNew 2).intervals ≤ 1 :=
  ⟨c9_start_running_noop.1 ⟨5, 5, TState.running, 1, true⟩ rfl,
    c9_start_running_noop.2 (timerNew 2) (Reachable.init 2)⟩

/-- The tick handler never changes the configured duration. -/
theorem timerTick_duration (t : TimerS) : (timerTick t).1.duration = t.duration := by
  obtain ⟨d, r, s, iv, trk⟩ := t
  by_cases hz : r ≤ 0 <;> cases s <;> cases trk <;>
    simp_all [timerTick, timerComplete, clearTracked, setStateT]

/-- The tick handler never increases the remaining time. -/
theorem timerTick_remaining_le (t : TimerS) :
    (timerTick t).1.remaining ≤ t.remaining := by
  obtain ⟨d, r, s, iv, trk⟩ := t
  by_cases hz : r ≤ 0 <;> cases s <;> cases trk <;>
    simp_all [timerTick, timerComplete, clearTracked, setStateT]

/-- C6 (counterexample).  The claim asserts `getProgress()` returns 100 only
at or after the Completed state.  With duration 1, after start and a single
tick the engine is still Running with `remaining = 0`, and `getProgress()`
already returns 100. -/
theorem c6_progress_100_while_running :
    getProgress (runTicks 1 (timerStart (timerNew 1)).1).1 = 100 ∧
      (runTicks 1 (timerStart (timerNew 1)).1).1.tstate = TState.running := by
  have hstate : (runTicks 1 (timerStart (timerNew 1)).1).1 =
      ⟨1, 0, TState.running, 1, true⟩ := by decide
  rw [hstate]
  norm_num [getProgress]

/-- C6 (amended).  For `remaining ≤ duration`: `getProgress()` lies in
[0,100]; it is 0 at the start (`remaining = duration`) and when duration is 0;
it never decreases across a tick; and it equals 100 exactly when the countdown
is exhausted (`duration ≠ 0` and `remaining = 0`) -- a point reached while the
engine is still Running, one tick before the Completed transition. -/
theorem c6_progress_bounds (t : TimerS) (h : t.remaining ≤ t.duration) :
    0 ≤ getProgress t ∧ getProgress t ≤ 100 ∧
      (t.remaining = t.duration → getProgress t = 0) ∧
      (t.duration = 0 → getProgress t = 0) ∧
      getProgress t ≤ getProgress (timerTick t).1 ∧
      (getProgress t = 100 ↔ (t.duration ≠ 0 ∧ t.remaining = 0)) := by
  by_cases hd : t.duration = 0
  · have hr0 : t.remaining = 0 := by omega
    have htd : (timerTick t).1.duration = 0 := by rw [timerTick_duration]; exact hd
    simp [getProgress, hd, htd]
  · have hdq : (0 : Rat) < (t.duration : Rat) := by
      have : 0 < t.duration := Nat.pos_of_ne_zero hd
      exact_mod_cast this
    have hne : (t.duration : Rat) ≠ 0 := ne_of_gt hdq
    have hrq : ((t.remaining : Rat)) ≤ (t.duration : Rat) := by exact_mod_cast h
    have hrq0 : (0 : Rat) ≤ (t.remaining : Rat) := by positivity
    refine ⟨?_, ?_, ?_, ?_, ?_, ?_⟩
    · simp only [getProgress, hd, if_false]
      have : (0 : Rat) ≤ ((t.duration : Rat) - (t.remaining : Rat)) / (t.duration : Rat) :=
        div_nonneg (by linarith) (le_of_lt hdq)
      linarith
    · simp only [getProgress, hd, if_false]
      rw [div_mul_eq_mul_div, div_le_iff hdq]
      nlinarith
    · intro he
      simp [getProgress, hd, he]
    · intro he
      exact absurd he hd
    · have hsame : (timerTick t).1.duration = t.duration := timerTick_duration t
      have hless := timerTick_remaining_le t
      have hcast : ((timerTick t).1.remaining : Rat) ≤ (t.remaining : Rat) := by
        exact_mod_cast hless
      simp only [getProgress, hd, hsame, if_false]
      apply mul_le_mul_of_nonneg_right _ (by norm_num : (0 : Rat) ≤ 100)
      exact (div_le_div_right hdq).mpr (by linarith)
    · simp only [getProgress, hd, if_false]
      constructor
      · intro h100
        refine ⟨hd, ?_⟩
        have hz : (t.remaining : Rat) = 0 := by
          field_simp at h100
          linarith
        exact_mod_cast hz
      · rintro ⟨-, hr⟩
        rw [hr]
        push_cast
        field_simp

/-- C6 (witness for the amended theorem, at a fresh timer of duration 3). -/
theorem c6_progress_bounds_witness :
    0 ≤ getProgress (timerNew 3) ∧ getProgress (timerNew 3) ≤ 100 ∧
      ((timerNew 3).remaining = (timerNew 3).duration →
        getProgress (timerNew 3) = 0) ∧
      ((timerNew 3).duration = 0 → getProgress (timerNew 3) = 0) ∧
      getProgress (timerNew 3) ≤ getProgress (timerTick (timerNew 3)).1 ∧
      (getProgress (timerNew 3) = 100 ↔
        ((timerNew 3).duration ≠ 0 ∧ (timerNew 3).remaining = 0)) :=
  c6_progress_bounds (timerNew 3) (by decide)

/-- JavaScript `String.prototype.trim`: strips whitespace from both ends
(embedded explicitly so that it evaluates in the kernel). -/
def jsTrim (s : String) : String :=
  String.mk
    (((s.data.dropWhile Char.isWhitespace).reverse.dropWhile
        Char.isWhitespace).reverse)

/-- Current task of `TaskManager.js` (the `startedAt` timestamp and the random
`id` are wall-clock/randomness effects outside the embedding). -/
structure JsTask where
  name : String
deriving DecidableEq, Repr

/-- A history record produced by `TaskManager.completeTask` (again without the
timestamp and random id). -/
structure CompletedTask where
  name : String
  duration : Int
  sessionCount : Nat
deriving DecidableEq, Repr

/-- State of `TaskManager.js`: the single current task and the completed-task
history (storage sync is a persistence effect outside the embedding). -/
structure TM where
  currentTask : Option JsTask
  completedTasks : List CompletedTask
deriving DecidableEq, Repr

/-- Source `TaskManager.validateTaskName`: `name && typeof name === "string" &&
name.trim().length > 0`.  On strings, JavaScript truthiness of `name` is
`name != ""`. -/
def validateTaskName (name : String) : Bool :=
  name ≠ "" && (jsTrim name).length > 0

/-- Source `TaskManager.setCurrentTask`: rejects invalid names, otherwise stores the
trimmed name as the current task. -/
def setCurrentTask (tm : TM) (name : String) : Except String TM :=
  if ¬ validateTaskName name then
    Except.error "Task name must be a non-empty string"
  else
    Except.ok { tm with currentTask := some ⟨jsTrim name⟩ }

/-- Source `TaskManager.calculateSessionsForTask`: completed records with this exact
name. -/
def calculateSessionsForTask (tm : TM) (name : String) : Nat :=
  (tm.completedTasks.filter (fun ct => ct.name = name)).length

/-- Source `TaskManager.completeTask`: validates name and duration (`!duration ||
typeof duration !== "number" || duration <= 0`; on numbers JavaScript
falsiness of `duration` is `duration = 0`, subsumed by `duration <= 0`), then
appends a record with a 1-based per-name session ordinal. -/
def completeTask (tm : TM) (name : String) (duration : Int) :
    Except String (TM × CompletedTask) :=
  if ¬ validateTaskName name then
    Except.error "Task name must be a non-empty string"
  else if duration ≤ 0 then
    Except.error "Duration must be a positive number"
  else
    let nm := jsTrim name
    let ct : CompletedTask := ⟨nm, duration, calculateSessionsForTask tm nm + 1⟩
    Except.ok ({ tm with completedTasks := tm.completedTasks ++ [ct] }, ct)

/-- Source `TaskManager.completeCurrentTask`: requires a current task and a positive
duration, delegates to `completeTask`, clears the current task, and returns
the record. -/
def completeCurrentTask (tm : TM) (duration : Int) :
    Except String (TM × CompletedTask) :=
  match tm.currentTask with
  | none => Except.error "No active task to complete"
  | some t =>
    if duration ≤ 0 then
      Except.error "Duration must be a positive number"
    else
      match completeTask tm t.name duration with
      | Except.error e => Except.error e
      | Except.ok (tm', ct) =>
        Except.ok ({ tm' with currentTask := none }, ct)

/-- C7.  `completeCurrentTask` fails with the IllegalState error when no
current task is set and with the InvalidInput error when the duration is not
positive; `setCurrentTask` rejects the empty and whitespace-only names; and
under the preconditions `completeCurrentTask` appends one CompletedTask
carrying the trimmed name, the duration and the 1-based per-name ordinal,
clears the current task, and returns the record. -/
theorem c7_task_ledger_errors :
    (∀ (tm : TM) (d : Int), tm.currentTask = none →
      completeCurrentTask tm d = Except.error "No active task to complete") ∧
      (∀ (tm : TM) (t : JsTask) (d : Int), tm.currentTask = some t → d ≤ 0 →
        completeCurrentTask tm d =
          Except.error "Duration must be a positive number") ∧
      (∀ (tm : TM) (name : String), jsTrim name = "" →
        setCurrentTask tm name =
          Except.error "Task name must be a non-empty string") ∧
      (∀ (tm : TM) (t : JsTask) (d : Int), tm.currentTask = some t → 0 < d →
        validateTaskName t.name = true →
        completeCurrentTask tm d =
          Except.ok
            (⟨none, tm.completedTasks ++
                [⟨jsTrim t.name, d,
                  calculateSessionsForTask tm (jsTrim t.name) + 1⟩]⟩,
              ⟨jsTrim t.name, d,
                calculateSessionsForTask tm (jsTrim t.name) + 1⟩)) := by
  refine ⟨?_, ?_, ?_, ?_⟩
  · intro tm d hc
    simp [completeCurrentTask, hc]
  · intro tm t d hc hd
    simp [completeCurrentTask, hc, hd]
  · intro tm name hname
    have hv : validateTaskName name = false := by
      simp [validateTaskName, hname]
    simp [setCurrentTask, hv]
  · intro tm t d hc hd hv
    have hd' : ¬ d ≤ 0 := by omega
    simp [completeCurrentTask, hc, hd', completeTask, hv]

/-- C7 (witness): a set task completes at duration 30 into a single record
with ordinal 1, and completion with no current task fails. -/
theorem c7_task_ledger_errors_witness :
    completeCurrentTask ⟨some ⟨"Write report"⟩, []⟩ 30 =
        Except.ok
          (⟨none, [⟨"Write report", 30, 1⟩]⟩, ⟨"Write report", 30, 1⟩) ∧
      completeCurrentTask ⟨none, []⟩ 30 =
        Except.error "No active task to complete" := by
  constructor
  · have h := c7_task_ledger_errors.2.2.2 ⟨some ⟨"Write report"⟩, []⟩
      ⟨"Write report"⟩ 30 rfl (by decide) (by decide)
    have e1 : jsTrim "Write report" = "Write report" := by decide
    rw [e1] at h
    have e2 : calculateSessionsForTask ⟨some ⟨"Write report"⟩, []⟩
        "Write report" = 0 := by decide
    rw [e2] at h
    simpa using h
  · exact c7_task_ledger_errors.1 ⟨none, []⟩ 30 rfl

/-- Coordinator state of `main.js` (App): the current task reference, the
break-mode flag, the in-memory session counter, and the persisted daily
session counter mutated through `storage.incrementSessions`.  UI and audio
calls are external effects outside the embedding; the `taskManager` collaborator
is abstracted as succeeding (recording the task and allowing the handler to
clear it). -/
structure AppS where
  currentTask : Option String
  isBreakMode : Bool
  sessionCount : Nat
  storedSessions : Nat
deriving DecidableEq, Repr

/-- Source `App.completeSession`: increments the in-memory session counter and the
persisted session counter (a statistics mutation); it does not touch
`isBreakMode`. -/
def completeSession (a : AppS) : AppS :=
  { a with
    sessionCount := a.sessionCount + 1
    storedSessions := a.storedSessions + 1 }

/-- Source `App.startBreak`: sets `isBreakMode = true` (UI updates elided); it does
not touch any counter. -/
def startBreak (a : AppS) : AppS :=
  { a with isBreakMode := true }

/-- Source `App.onTimerComplete`: saves and clears the current task when one exists,
then branches on `isBreakMode`: in break mode it calls `completeSession`,
otherwise `startBreak`. -/
def onTimerComplete (a : AppS) : AppS :=
  let a1 :=
    match a.currentTask with
    | some _ => { a with currentTask := none }
    | none => a
  if a1.isBreakMode then completeSession a1 else startBreak a1

/-- C3.  The coordinator branches are inverted relative to the claim: when a
break timer completes (`isBreakMode = true`) the code increments the session
counters (a statistics mutation) and leaves the mode in break; when a work
timer completes the code switches to break without incrementing any counter,
and no long-break logic exists anywhere in `main.js`. -/
theorem c3_completion_branches :
    onTimerComplete ⟨none, true, 0, 0⟩ = ⟨none, true, 1, 1⟩ ∧
      onTimerComplete ⟨none, false, 0, 0⟩ = ⟨none, true, 0, 0⟩ := by
  decide

/-- The loop body of `TaskManager.getStreakInfo` over the sorted distinct
date array: with a successor entry, a day gap of exactly 1 increments the
running streak, any other gap folds the running streak into the maximum and
resets it to 0; the final entry increments the running streak and folds it. -/
def streakFold (temp longest : Int) : List Int → Int × Int
  | [] => (temp, longest)
  | [_] =>
    let t := temp + 1
    (t, if t > longest then t else longest)
  | x :: y :: rest =>
    if y - x = 1 then streakFold (temp + 1) longest (y :: rest)
    else streakFold 0 (if temp > longest then temp else longest) (y :: rest)

/-- Source `TaskManager.getStreakInfo`, over the distinct completion dates as integer
day numbers in the order produced by the source (which sorts the
`toDateString()` strings) and the current day number.  Returns
(currentStreak, longestStreak).  With no completions it returns (0, 0);
otherwise the current streak is the final running streak if today is within
one day of the last array entry, else 0. -/
def getStreakInfo (dates : List Int) (today : Int) : Int × Int :=
  match dates with
  | [] => (0, 0)
  | d0 :: rest =>
    let p := streakFold 0 0 (d0 :: rest)
    let lastDate := (d0 :: rest).getLast (List.cons_ne_nil d0 rest)
    let daysSinceLastActive := today - lastDate
    let current := if daysSinceLastActive ≤ 1 then p.1 else 0
    (current, p.2)

/-- C5.  On completion days D, D+1, D+2, D+4 with today = D+6 (embedded as
day numbers 0, 1, 2, 4 and 6; realized e.g. by D = Friday 2026-10-09, for
which the source sort of the `toDateString()` strings is chronological), the
code returns currentStreak = 0 as claimed but longestStreak = 2, not the
claimed 3: a run of k consecutive days that is not at the end of the array
contributes only k - 1 to the maximum. -/
theorem c5_streak_undercount :
    getStreakInfo [0, 1, 2, 4] 6 = (0, 2) := by
  decide

/-- Decidable equality for embedded fallible results. -/
instance {e a : Type} [DecidableEq e] [DecidableEq a] :
    DecidableEq (Except e a) := fun x y =>
  match x, y with
  | Except.ok u, Except.ok v =>
    match decEq u v with
    | isTrue h => isTrue (by rw [h])
    | isFalse h => isFalse (fun hc => h (by injection hc))
  | Except.error u, Except.error v =>
    match decEq u v with
    | isTrue h => isTrue (by rw [h])
    | isFalse h => isFalse (fun hc => h (by injection hc))
  | Except.ok _, Except.error _ => isFalse (fun hc => by injection hc)
  | Except.error _, Except.ok _ => isFalse (fun hc => by injection hc)

/-- An observer callback registered on the engine: an identifier for tracking
invocation, and the external behavior of one invocation (returning normally or
throwing). -/
structure Callback where
  id : Nat
  behavior : Except String Unit
deriving DecidableEq, Repr

/-- Whether the callback throws when invoked. -/
def throwsB (cb : Callback) : Bool :=
  match cb.behavior with
  | Except.error _ => true
  | Except.ok _ => false

/-- The `forEach` dispatch loop with its per-callback `try`/`catch` from
`Timer.tick`, `Timer.complete` and `Timer.setState`: every callback is
invoked in registration order; a thrown error is caught (and logged) and
iteration continues.  Returns (invoked ids in order, caught-error ids). -/
def guardedDispatch : List Callback → List Nat × List Nat
  | [] => ([], [])
  | cb :: rest =>
    let r := guardedDispatch rest
    match cb.behavior with
    | Except.ok _ => (cb.id :: r.1, r.2)
    | Except.error _ => (cb.id :: r.1, cb.id :: r.2)

/-- The engine with its three observer registries (the `callbacks` object of
the `Timer` constructor). -/
structure TimerDisp where
  core : TimerS
  tickCbs : List Callback
  completeCbs : List Callback
  stateChangeCbs : List Callback
deriving DecidableEq, Repr

/-- The registry consulted for each emitted event. -/
def registryFor (tf : TimerDisp) : Ev → List Callback
  | Ev.tickE _ => tf.tickCbs
  | Ev.completeE => tf.completeCbs
  | Ev.stateChangeE _ _ => tf.stateChangeCbs

/-- Dispatch of a sequence of emitted events through the guarded loop. -/
def dispatchEvents (tf : TimerDisp) : List Ev → List Nat × List Nat
  | [] => ([], [])
  | e :: es =>
    let d := guardedDispatch (registryFor tf e)
    let r := dispatchEvents tf es
    (d.1 ++ r.1, d.2 ++ r.2)

/-- An engine operation followed by dispatch of its emitted events: the core
state update is computed before dispatch, exactly as in the source, where
every field mutation precedes the `forEach` loops. -/
def runDisp (op : TimerS → TimerS × List Ev) (tf : TimerDisp) :
    TimerDisp × List Nat × List Nat :=
  let p := op tf.core
  let d := dispatchEvents tf p.2
  ({ tf with core := p.1 }, d)

/-- The same callback with the throwing behavior replaced by a normal
return. -/
def neutralizeCb (cb : Callback) : Callback :=
  { cb with behavior := Except.ok () }

/-- The same engine with every registered callback made non-throwing. -/
def neutralizeT (tf : TimerDisp) : TimerDisp :=
  { tf with
    tickCbs := tf.tickCbs.map neutralizeCb
    completeCbs := tf.completeCbs.map neutralizeCb
    stateChangeCbs := tf.stateChangeCbs.map neutralizeCb }

/-- C4.  Observer failure isolation: the guarded dispatch invokes every
registered callback in registration order whether or not earlier ones throw; a
throwing callback has its error caught (recorded, never propagated); and for
every engine operation the timer state after the operation-with-dispatch
equals the pure state update, hence equals the state that results when no
callback throws. -/
theorem c4_observer_isolation :
    (∀ cbs : List Callback, (guardedDispatch cbs).1 = cbs.map Callback.id) ∧
      (∀ (cbs : List Callback) (cb : Callback), cb ∈ cbs → throwsB cb = true →
        cb.id ∈ (guardedDispatch cbs).2) ∧
      (∀ (op : TimerS → TimerS × List Ev) (tf : TimerDisp),
        (runDisp op tf).1.core = (op tf.core).1 ∧
          (runDisp op tf).1.core = (runDisp op (neutralizeT tf)).1.core) := by
  refine ⟨?_, ?_, ?_⟩
  · intro cbs
    induction cbs with
    | nil => rfl
    | cons cb rest ih =>
      obtain ⟨i, b⟩ := cb
      cases b <;> simp [guardedDispatch, ih]
  · intro cbs cb hmem hthrows
    induction cbs with
    | nil => exact absurd hmem (List.not_mem_nil cb)
    | cons hd rest ih =>
      rcases List.mem_cons.mp hmem with heq | htl
      · subst heq
        obtain ⟨i, b⟩ := cb
        cases b with
        | ok u => simp [throwsB] at hthrows
        | error e => simp [guardedDispatch]
      · obtain ⟨i, b⟩ := hd
        cases b with
        | ok u => simpa [guardedDispatch] using ih htl
        | error e =>
          simp [guardedDispatch]
          exact Or.inr (ih htl)
  · intro op tf
    exact ⟨rfl, rfl⟩

/-- C4 (witness): with a throwing callback registered first, both callbacks
are still invoked in order and the thrown error is caught. -/
theorem c4_observer_isolation_witness :
    (guardedDispatch [⟨0, Except.error "boom"⟩, ⟨1, Except.ok ()⟩]).1 =
        [0, 1] ∧
      (0 : Nat) ∈
        (guardedDispatch [⟨0, Except.error "boom"⟩, ⟨1, Except.ok ()⟩]).2 := by
  constructor
  · have h := c4_observer_isolation.1 [⟨0, Except.error "boom"⟩, ⟨1, Except.ok ()⟩]
    simpa using h
  · exact c4_observer_isolation.2.1 _ ⟨0, Except.error "boom"⟩
      (List.mem_cons_self _ _) rfl

/-- Property names a plain JavaScript object literal inherits from
`Object.prototype`.  In `Timer.on`, the lookup `this.callbacks[event]` on the
literal with keys tick, complete, stateChange returns the inherited function
(or prototype object) for these names, which is truthy, so the subsequent
`.push(callback)` call throws a TypeError. -/
def objectPrototypeProps : List String :=
  ["constructor", "hasOwnProperty", "isPrototypeOf", "propertyIsEnumerable",
    "toLocaleString", "toString", "valueOf", "__defineGetter__",
    "__defineSetter__", "__lookupGetter__", "__lookupSetter__", "__proto__"]

/-- Source `Timer.on`: appends the callback to the matching registry for the three
known event names; for any other name the guard `if (this.callbacks[event])`
sees `undefined` (falsy) and does nothing -- except for names inherited from
`Object.prototype`, where the lookup is truthy and `.push` throws. -/
def timerOn (event : String) (cb : Callback) (tf : TimerDisp) :
    Except String TimerDisp :=
  if event = "tick" then
    Except.ok { tf with tickCbs := tf.tickCbs ++ [cb] }
  else if event = "complete" then
    Except.ok { tf with completeCbs := tf.completeCbs ++ [cb] }
  else if event = "stateChange" then
    Except.ok { tf with stateChangeCbs := tf.stateChangeCbs ++ [cb] }
  else if event ∈ objectPrototypeProps then
    Except.error "TypeError: push is not a function"
  else
    Except.ok tf

/-- C10 (counterexample).  The claim asserts every unknown event name is a
silent no-op, but `on` with the inherited property name toString throws a
TypeError: the lookup on the callbacks object literal returns
`Object.prototype.toString`, which is truthy, and `.push` is then called on a
function. -/
theorem c10_on_inherited_name_throws :
    timerOn "toString" ⟨0, Except.ok ()⟩ ⟨timerNew 5, [], [], []⟩ =
      Except.error "TypeError: push is not a function" := by
  decide

/-- C10 (amended).  `on` with an event name that is neither one of the three
registry keys nor a property inherited from `Object.prototype` is a silent
no-op: no throw, no registration, engine unchanged. -/
theorem c10_on_unknown_event_noop (e : String) (cb : Callback) (tf : TimerDisp)
    (h1 : e ≠ "tick") (h2 : e ≠ "complete") (h3 : e ≠ "stateChange")
    (h4 : e ∉ objectPrototypeProps) :
    timerOn e cb tf = Except.ok tf := by
  simp [timerOn, h1, h2, h3, h4]

/-- C10 (witness for the amended theorem, at the event name foo). -/
theorem c10_on_unknown_event_noop_witness :
    timerOn "foo" ⟨0, Except.ok ()⟩ ⟨timerNew 5, [], [], []⟩ =
      Except.ok ⟨timerNew 5, [], [], []⟩ :=
  c10_on_unknown_event_noop "foo" ⟨0, Except.ok ()⟩ ⟨timerNew 5, [], [], []⟩
    (by decide) (by decide) (by decide) (by decide)
